import Mathlib

/-!
# Verification of the merkle-tree-token-claimer program

Shallow embedding of `programs/merkle-tree-token-claimer/src/lib.rs`.

Bytes are modelled as `Nat` (each intended `< 256`), byte strings as
`List Nat`.  `u64` values are modelled as `Nat` with explicit `2 ^ 64`
bounds where wrap-around matters.  The on-chain account `AirdropState` is a
record; the three instructions become functions from a state (plus the
caller-supplied arguments) to `Except e AirdropState`.  An `Except.error`
models an aborted transaction: on Solana/Anchor a returned error rolls the
whole transaction back, so no partial state is observable (spec section 5),
which is why the error branches carry no state.

The proof engine (`svm_merkle_tree::MerkleProof::merklize`) is an external
crate, not part of this repository's sources; it is modelled from the
spec, parameterised by the hash function `H` since the spec fixes only
"a Keccak-family hash".  Theorems hold for every `H`; witnesses use a
small concrete executable hash.
-/

deriving instance DecidableEq for Except

namespace MerkleClaimer

/-- The 8 little-endian bytes of a `u64`; model of Rust `u64::to_le_bytes`
applied to `amount` (lib.rs lines 78 and 121). Faithful for `n < 2 ^ 64`. -/
def u64LeBytes (n : Nat) : List Nat :=
  [n % 256, n / 256 % 256, n / 256 ^ 2 % 256, n / 256 ^ 3 % 256,
   n / 256 ^ 4 % 256, n / 256 ^ 5 % 256, n / 256 ^ 6 % 256, n / 256 ^ 7 % 256]

/-- Decode a little-endian byte string back to a natural number (used to
state that `u64LeBytes` really is the little-endian encoding). -/
def leBytesToNat (l : List Nat) : Nat :=
  l.foldr (fun b acc => b + 256 * acc) 0

/-- Leaf byte layout built by `claim_airdrop` (lib.rs lines 76-79 and
119-122): `claimant || amount(LE, 8 bytes) || claimed_flag`. -/
def leafBytes (claimant : List Nat) (amount : Nat) (flag : Nat) : List Nat :=
  claimant ++ u64LeBytes amount ++ [flag]

/-- One fold level per tree depth: combine the running digest with the next
32-byte sibling chunk, left/right chosen by the low bit of the index, then
shift the index right by one bit. Modelled from the spec (section 4.2). -/
def merklizeGo (H : List Nat → List Nat) : Nat → Nat → List Nat → List Nat → List Nat
  | 0, _, _, current => current
  | d + 1, index, hashes, current =>
    merklizeGo H d (index / 2) (hashes.drop 32)
      (if index % 2 = 0 then H (current ++ hashes.take 32) else H (hashes.take 32 ++ current))

/-- Modelled from the spec: `svm_merkle_tree::MerkleProof::merklize` (the
crate is a dependency, its source is not in this repository).  Per spec
section 4.2: start from `hash(leaf_bytes)`, consume one 32-byte sibling
digest per level, orientation given by the index bits (least-significant
bit first); return an error (`none`) when the flat sibling byte string has
a wrong-width element or an implied depth disagreeing with the configured
depth. -/
def merklize (H : List Nat → List Nat) (depth index : Nat)
    (hashes leaf : List Nat) : Option (List Nat) :=
  if hashes.length = depth * 32 then
    some (merklizeGo H depth index hashes (H leaf))
  else
    none

/-- Model of Rust `u64::checked_add` (lib.rs line 136). -/
def checked_add_u64 (a b : Nat) : Option Nat :=
  if a + b < 2 ^ 64 then some (a + b) else none

/-- The `AirdropState` account (lib.rs lines 217-225).  `Pubkey`s are
32-byte strings, `u64` fields are `Nat`, `bump` is a byte. -/
structure AirdropState where
  merkle_root : List Nat
  authority : List Nat
  mint : List Nat
  airdrop_amount : Nat
  amount_claimed : Nat
  bump : Nat
  deriving DecidableEq, Repr

/-- The `WhitelistError` enum (lib.rs lines 227-235).  Note there is no
`MalformedInput` variant. -/
inductive WhitelistError where
  | InvalidProof
  | AlreadyClaimed
  | OverFlow
  deriving DecidableEq, Repr

/-- Error for the `Update` accounts constraint `has_one = authority`
(lib.rs line 179): a caller other than the stored authority cannot execute
`update_tree`.  The spec names this failure `Unauthorized`. -/
inductive UpdateError where
  | Unauthorized
  deriving DecidableEq, Repr

/-- `claim_airdrop` (lib.rs lines 67-140).  The signer's key, the claimed
`amount`, the flat sibling bytes `hashes` and the `u64` leaf `index` are
the instruction inputs.  `index as u32` becomes `index % 2 ^ 32`.  Control
flow mirrors the source: build the unclaimed leaf, merklize it (a merklize
error is mapped to `InvalidProof`), `require!` the computed root to equal
the stored root, transfer (external, between the two pure computations),
build the claimed leaf, merklize it, convert to a 32-byte array
(`try_into`, error mapped to `InvalidProof`), store the new root, and
update `amount_claimed` with `checked_add` (`OverFlow` on wrap).  An
`Except.error` result models the atomically aborted transaction. -/
def claim_airdrop (H : List Nat → List Nat) (s : AirdropState)
    (signer : List Nat) (amount : Nat) (hashes : List Nat) (index : Nat) :
    Except WhitelistError AirdropState :=
  match merklize H 32 (index % 2 ^ 32) hashes (leafBytes signer amount 0) with
  | none => .error .InvalidProof
  | some computed_root =>
    if computed_root = s.merkle_root then
      match merklize H 32 (index % 2 ^ 32) hashes (leafBytes signer amount 1) with
      | none => .error .InvalidProof
      | some updated_root =>
        if updated_root.length = 32 then
          match checked_add_u64 s.amount_claimed amount with
          | none => .error .OverFlow
          | some total =>
            .ok { s with merkle_root := updated_root, amount_claimed := total }
        else .error .InvalidProof
    else .error .InvalidProof

/-- Whether the external token transfer (lib.rs lines 105-116) is reached:
in the source it executes exactly when the first `merklize` succeeded and
the computed root passed the `require!` against the stored root. -/
def transfer_attempted (H : List Nat → List Nat) (s : AirdropState)
    (signer : List Nat) (amount : Nat) (hashes : List Nat) (index : Nat) : Bool :=
  match merklize H 32 (index % 2 ^ 32) hashes (leafBytes signer amount 0) with
  | none => false
  | some computed_root => computed_root = s.merkle_root

/-- `update_tree` (lib.rs lines 57-65) together with the `Update` accounts
constraints (lib.rs lines 175-185): the `has_one = authority` constraint
rejects any caller other than the stored authority before the handler
runs; the handler itself overwrites `merkle_root` unconditionally. -/
def update_tree (s : AirdropState) (caller new_root : List Nat) :
    Except UpdateError AirdropState :=
  if caller = s.authority then .ok { s with merkle_root := new_root }
  else .error .Unauthorized

/-! ## Concrete values used by witnesses and counterexamples -/

/-- A small executable stand-in hash, used only to instantiate the hash
parameter `H` in witnesses (the real crate uses Keccak-256, external to
this repository).  Produces 32 bytes like the real hash. -/
def toyHash (l : List Nat) : List Nat :=
  List.replicate 32 ((l.headD 0 + l.getLastD 0 + 1) % 256)

def wSigner : List Nat := List.replicate 32 1

def wAuthority : List Nat := List.replicate 32 2

def wMint : List Nat := List.replicate 32 3

/-- A depth-32 sibling path: 32 levels of 32 zero bytes each. -/
def wHashes : List Nat := List.replicate 1024 0

/-- Root of the unclaimed leaf (signer, amount 5, flag 0) at index 0. -/
def wRoot0 : List Nat := merklizeGo toyHash 32 0 wHashes (toyHash (leafBytes wSigner 5 0))

/-- Root of the claimed leaf (signer, amount 5, flag 1) at index 0. -/
def wRoot1 : List Nat := merklizeGo toyHash 32 0 wHashes (toyHash (leafBytes wSigner 5 1))

def wState : AirdropState :=
  { merkle_root := wRoot0, authority := wAuthority, mint := wMint,
    airdrop_amount := 1000, amount_claimed := 0, bump := 254 }

def wStateAfter : AirdropState :=
  { wState with merkle_root := wRoot1, amount_claimed := 5 }

/-- A state whose stored root cannot match any digest the proof yields. -/
def wEmptyRootState : AirdropState := { wState with merkle_root := [] }

/-- A state whose allocation is 0 while the committed tree still contains
an unclaimed entitlement of 5: a valid proof then pushes `amount_claimed`
past `airdrop_amount`. -/
def wCapState : AirdropState := { wState with airdrop_amount := 0 }

def wCapAfter : AirdropState :=
  { wCapState with merkle_root := wRoot1, amount_claimed := 5 }

/-- A state on the verge of `u64` overflow of `amount_claimed`. -/
def wOvState : AirdropState := { wState with amount_claimed := 2 ^ 64 - 1 }

/-! ## Theorems -/

set_option maxRecDepth 40000

/-- Inversion helper: everything a successful `claim_airdrop` implies about
its inputs and its output state, read off the source control flow. -/
theorem claim_ok_elim (H : List Nat → List Nat) (s : AirdropState)
    (signer : List Nat) (amount : Nat) (hashes : List Nat) (index : Nat)
    (s' : AirdropState)
    (hok : claim_airdrop H s signer amount hashes index = .ok s') :
    merklize H 32 (index % 2 ^ 32) hashes (leafBytes signer amount 0) =
      some s.merkle_root ∧
    merklize H 32 (index % 2 ^ 32) hashes (leafBytes signer amount 1) =
      some s'.merkle_root ∧
    s'.authority = s.authority ∧ s'.mint = s.mint ∧
    s'.airdrop_amount = s.airdrop_amount ∧ s'.bump = s.bump ∧
    s'.amount_claimed = s.amount_claimed + amount ∧
    s.amount_claimed + amount < 2 ^ 64 := by
  unfold claim_airdrop at hok
  cases hm : merklize H 32 (index % 2 ^ 32) hashes (leafBytes signer amount 0) with
  | none =>
    rw [hm] at hok
    simp at hok
  | some r =>
    simp only [hm] at hok
    by_cases hr : r = s.merkle_root
    · rw [if_pos hr] at hok
      cases hm1 : merklize H 32 (index % 2 ^ 32) hashes (leafBytes signer amount 1) with
      | none =>
        rw [hm1] at hok
        simp at hok
      | some u =>
        simp only [hm1] at hok
        by_cases hu : u.length = 32
        · rw [if_pos hu] at hok
          cases hadd : checked_add_u64 s.amount_claimed amount with
          | none =>
            rw [hadd] at hok
            simp at hok
          | some t =>
            simp only [hadd] at hok
            have hbound : s.amount_claimed + amount < 2 ^ 64 ∧
                t = s.amount_claimed + amount := by
              unfold checked_add_u64 at hadd
              by_cases hlt : s.amount_claimed + amount < 2 ^ 64
              · rw [if_pos hlt] at hadd
                exact ⟨hlt, (Option.some_injective _ hadd).symm⟩
              · rw [if_neg hlt] at hadd
                exact absurd hadd (by simp)
            have hs' : s' = { s with merkle_root := u, amount_claimed := t } := by
              cases hok
              rfl
            subst hs'
            exact ⟨congrArg some hr, rfl, rfl, rfl, rfl, rfl, hbound.2, hbound.1⟩
        · rw [if_neg hu] at hok
          simp at hok
    · rw [if_neg hr] at hok
      simp at hok

/-- C1: if the root recomputed from the unclaimed leaf (signer, amount,
claimed flag 0) with the supplied siblings and index is not the stored
`merkle_root` (in particular whenever the recomputed root differs from it),
`claim_airdrop` fails with `InvalidProof` and the token transfer is not
attempted; contrapositively, verification passes and the transfer is
attempted only when the recomputed root equals the stored root. -/
theorem claim_rejects_root_mismatch (H : List Nat → List Nat)
    (s : AirdropState) (signer : List Nat) (amount : Nat)
    (hashes : List Nat) (index : Nat)
    (h : merklize H 32 (index % 2 ^ 32) hashes (leafBytes signer amount 0) ≠
      some s.merkle_root) :
    claim_airdrop H s signer amount hashes index = .error .InvalidProof ∧
    transfer_attempted H s signer amount hashes index = false := by
  unfold claim_airdrop transfer_attempted
  cases hm : merklize H 32 (index % 2 ^ 32) hashes (leafBytes signer amount 0) with
  | none => simp
  | some r =>
    have hr : r ≠ s.merkle_root := fun he => h (by rw [hm, he])
    simp [hr]

/-- C1 witness: against a state whose stored root is the empty byte string
(which no 32-byte digest equals), a proof-carrying claim is rejected with
`InvalidProof` and no transfer is attempted. -/
theorem claim_rejects_root_mismatch_witness :
    claim_airdrop toyHash wEmptyRootState wSigner 5 wHashes 0 =
      .error .InvalidProof ∧
    transfer_attempted toyHash wEmptyRootState wSigner 5 wHashes 0 = false :=
  claim_rejects_root_mismatch toyHash wEmptyRootState wSigner 5 wHashes 0
    (by decide)

/-- C2: a valid claim processed once cannot be replayed: if
`claim_airdrop` succeeds and the stored root has advanced (the claimed-leaf
root differs from the unclaimed-leaf root, which holds for the real hash
absent a collision), then the identical resubmission against the resulting
state fails with `InvalidProof`. -/
theorem claim_idempotent_reject (H : List Nat → List Nat)
    (s : AirdropState) (signer : List Nat) (amount : Nat)
    (hashes : List Nat) (index : Nat) (s' : AirdropState)
    (hok : claim_airdrop H s signer amount hashes index = .ok s')
    (hadv : s'.merkle_root ≠ s.merkle_root) :
    claim_airdrop H s' signer amount hashes index = .error .InvalidProof := by
  obtain ⟨h0, _h1, _, _, _, _, _, _⟩ :=
    claim_ok_elim H s signer amount hashes index s' hok
  have hne : merklize H 32 (index % 2 ^ 32) hashes (leafBytes signer amount 0) ≠
      some s'.merkle_root := by
    rw [h0]
    intro hcontra
    exact hadv (Option.some_injective _ hcontra).symm
  exact (claim_rejects_root_mismatch H s' signer amount hashes index hne).1

/-- C2 witness: the concrete claim of 5 units at index 0 succeeds once,
advances the root, and the identical resubmission is rejected. -/
theorem claim_idempotent_reject_witness :
    claim_airdrop toyHash wStateAfter wSigner 5 wHashes 0 =
      .error .InvalidProof :=
  claim_idempotent_reject toyHash wState wSigner 5 wHashes 0 wStateAfter
    (by decide) (by decide)

/-- C3: on every successful `claim_airdrop`, the stored root afterwards is
exactly the root recomputed from the claimed leaf (signer, amount, claimed
flag 1) with the same siblings and the same (truncated) index used for
verification, and `amount_claimed` has grown by exactly `amount`. -/
theorem claim_success_postcondition (H : List Nat → List Nat)
    (s : AirdropState) (signer : List Nat) (amount : Nat)
    (hashes : List Nat) (index : Nat) (s' : AirdropState)
    (hok : claim_airdrop H s signer amount hashes index = .ok s') :
    merklize H 32 (index % 2 ^ 32) hashes (leafBytes signer amount 1) =
      some s'.merkle_root ∧
    s'.amount_claimed = s.amount_claimed + amount := by
  obtain ⟨_, h1, _, _, _, _, hsum, _⟩ :=
    claim_ok_elim H s signer amount hashes index s' hok
  exact ⟨h1, hsum⟩

/-- C3 witness: the concrete claim of 5 units yields the claimed-leaf root
and `amount_claimed = 0 + 5`. -/
theorem claim_success_postcondition_witness :
    merklize toyHash 32 (0 % 2 ^ 32) wHashes (leafBytes wSigner 5 1) =
      some wStateAfter.merkle_root ∧
    wStateAfter.amount_claimed = wState.amount_claimed + 5 :=
  claim_success_postcondition toyHash wState wSigner 5 wHashes 0 wStateAfter
    (by decide)

/-- C4: the leaf bytes hashed by `claim_airdrop` are exactly the 41-byte
concatenation claimant (32 bytes), then the 8 little-endian bytes of
`amount` (decoding back to `amount`), then the 1-byte claimed flag — for
both the unclaimed (`flag = 0`) and the claimed (`flag = 1`) leaf, which
are built by the same `leafBytes`. -/
theorem leaf_encoding_layout (claimant : List Nat) (amount flag : Nat)
    (hc : claimant.length = 32) (ha : amount < 2 ^ 64) :
    (leafBytes claimant amount flag).length = 41 ∧
    (leafBytes claimant amount flag).take 32 = claimant ∧
    ((leafBytes claimant amount flag).drop 32).take 8 = u64LeBytes amount ∧
    (u64LeBytes amount).length = 8 ∧
    leBytesToNat (u64LeBytes amount) = amount ∧
    (leafBytes claimant amount flag).drop 40 = [flag] := by
  have hlen8 : (u64LeBytes amount).length = 8 := by simp [u64LeBytes]
  refine ⟨?_, ?_, ?_, hlen8, ?_, ?_⟩
  · simp [leafBytes, u64LeBytes, hc]
  · rw [leafBytes, List.append_assoc]
    exact List.take_left' hc
  · rw [leafBytes, List.append_assoc, List.drop_left' hc]
    exact List.take_left' hlen8
  · simp only [u64LeBytes, leBytesToNat, List.foldr]
    omega
  · rw [leafBytes]
    refine List.drop_left' ?_
    simp [hc, hlen8]

/-- C4 witness: the layout facts evaluated at the concrete signer, amount
5 and the unclaimed flag. -/
theorem leaf_encoding_layout_witness :
    (leafBytes wSigner 5 0).length = 41 ∧
    (leafBytes wSigner 5 0).take 32 = wSigner ∧
    ((leafBytes wSigner 5 0).drop 32).take 8 = u64LeBytes 5 ∧
    (u64LeBytes 5).length = 8 ∧
    leBytesToNat (u64LeBytes 5) = 5 ∧
    (leafBytes wSigner 5 0).drop 40 = [0] :=
  leaf_encoding_layout wSigner 5 0 (by decide) (by decide)

/-- C5 counterexample: the code never compares `amount_claimed` against
`airdrop_amount`.  Against a state with `airdrop_amount = 0` whose stored
root commits to an unclaimed entitlement of 5 units, the claim succeeds
and leaves `amount_claimed = 5 > 0 = airdrop_amount`, refuting the
claimed bound and the claimed failure. -/
theorem claim_can_exceed_allocation_cx :
    claim_airdrop toyHash wCapState wSigner 5 wHashes 0 = .ok wCapAfter ∧
    wCapAfter.airdrop_amount < wCapAfter.amount_claimed := by decide

/-- C5 (amended): across successful claims `amount_claimed` is
non-decreasing; the only defensive bound the code enforces is the
overflow-checked `u64` addition, not a comparison with `airdrop_amount`. -/
theorem claim_amount_claimed_monotonic (H : List Nat → List Nat)
    (s : AirdropState) (signer : List Nat) (amount : Nat)
    (hashes : List Nat) (index : Nat) (s' : AirdropState)
    (hok : claim_airdrop H s signer amount hashes index = .ok s') :
    s.amount_claimed ≤ s'.amount_claimed := by
  obtain ⟨_, _, _, _, _, _, hsum, _⟩ :=
    claim_ok_elim H s signer amount hashes index s' hok
  omega

/-- C5 (amended) witness: the concrete successful claim grows
`amount_claimed` from 0 to 5. -/
theorem claim_amount_claimed_monotonic_witness :
    wState.amount_claimed ≤ wStateAfter.amount_claimed :=
  claim_amount_claimed_monotonic toyHash wState wSigner 5 wHashes 0 wStateAfter
    (by decide)

/-- C6: when the proof verifies but adding `amount` to `amount_claimed`
would leave the `u64` range, `claim_airdrop` fails with `OverFlow`; the
`Except.error` result is the atomically aborted transaction (spec section
5), so neither the root advance written just before the `checked_add` nor
any `amount_claimed` change is observable. -/
theorem claim_overflow_rejected (H : List Nat → List Nat)
    (s : AirdropState) (signer : List Nat) (amount : Nat)
    (hashes : List Nat) (index : Nat) (r1 : List Nat)
    (h0 : merklize H 32 (index % 2 ^ 32) hashes (leafBytes signer amount 0) =
      some s.merkle_root)
    (h1 : merklize H 32 (index % 2 ^ 32) hashes (leafBytes signer amount 1) =
      some r1)
    (hlen : r1.length = 32)
    (hov : 2 ^ 64 ≤ s.amount_claimed + amount) :
    claim_airdrop H s signer amount hashes index = .error .OverFlow := by
  unfold claim_airdrop
  simp only [h0, if_true]
  simp only [h1]
  rw [if_pos hlen]
  unfold checked_add_u64
  rw [if_neg (by omega)]

/-- C6 witness: with `amount_claimed = 2 ^ 64 - 1`, claiming 5 more units
with a valid proof fails with `OverFlow`. -/
theorem claim_overflow_rejected_witness :
    claim_airdrop toyHash wOvState wSigner 5 wHashes 0 = .error .OverFlow :=
  claim_overflow_rejected toyHash wOvState wSigner 5 wHashes 0 wRoot1
    (by decide) (by decide) (by decide) (by decide)

/-- C7: `update_tree` called by any identity other than the stored
authority fails with `Unauthorized` (the `has_one = authority` account
constraint), leaving the state — in particular `merkle_root` — unchanged;
called by the stored authority it replaces `merkle_root` with the supplied
value unconditionally. -/
theorem update_tree_authority_gate (s : AirdropState)
    (caller new_root : List Nat) :
    (caller ≠ s.authority →
      update_tree s caller new_root = .error .Unauthorized) ∧
    (caller = s.authority →
      update_tree s caller new_root = .ok { s with merkle_root := new_root }) := by
  unfold update_tree
  constructor
  · intro h
    rw [if_neg h]
  · intro h
    rw [if_pos h]

/-- C7 witness: the gate evaluated for a non-authority caller (the claim
signer) and for the stored authority itself. -/
theorem update_tree_authority_gate_witness :
    ((wSigner ≠ wState.authority →
        update_tree wState wSigner [] = .error .Unauthorized) ∧
      (wSigner = wState.authority →
        update_tree wState wSigner [] = .ok { wState with merkle_root := [] })) ∧
    (wAuthority = wState.authority →
      update_tree wState wAuthority [] = .ok { wState with merkle_root := [] }) :=
  ⟨update_tree_authority_gate wState wSigner [],
    (update_tree_authority_gate wState wAuthority []).2⟩

/-- C8 counterexample: a claim whose flat sibling byte string has the
wrong width (a single byte instead of 32 levels of 32 bytes) fails with
`InvalidProof`, not `MalformedInput` — the source maps the proof engine's
error to `WhitelistError::InvalidProof`, and `WhitelistError` (the only
error enum of the program) has no `MalformedInput` variant at all. -/
theorem malformed_input_error_is_invalid_proof_cx :
    claim_airdrop toyHash wState wSigner 5 [0] 0 = .error .InvalidProof := by
  decide

/-- C8 (amended): a sibling path whose byte length is not depth 32 times
32-byte elements makes `claim_airdrop` fail — with `InvalidProof`, the
code's mapping of the proof-engine error — and the failure is detected
before the transfer is attempted. -/
theorem malformed_input_rejected_before_transfer (H : List Nat → List Nat)
    (s : AirdropState) (signer : List Nat) (amount : Nat)
    (hashes : List Nat) (index : Nat)
    (hlen : hashes.length ≠ 32 * 32) :
    claim_airdrop H s signer amount hashes index = .error .InvalidProof ∧
    transfer_attempted H s signer amount hashes index = false := by
  have hm : merklize H 32 (index % 2 ^ 32) hashes (leafBytes signer amount 0) =
      none := by
    unfold merklize
    rw [if_neg hlen]
  unfold claim_airdrop transfer_attempted
  rw [hm]
  exact ⟨rfl, rfl⟩

/-- C8 (amended) witness: a one-byte sibling string at index 7 is rejected
with `InvalidProof` and no transfer is attempted. -/
theorem malformed_input_rejected_before_transfer_witness :
    claim_airdrop toyHash wState wSigner 5 [0] 7 = .error .InvalidProof ∧
    transfer_attempted toyHash wState wSigner 5 [0] 7 = false :=
  malformed_input_rejected_before_transfer toyHash wState wSigner 5 [0] 7
    (by decide)

/-- C9: `update_tree` modifies only `merkle_root`: whenever it returns a
new state, that state's `authority`, `mint`, `airdrop_amount`,
`amount_claimed` and `bump` equal the old ones (and a rejected call
returns no state at all). -/
theorem update_tree_frame (s : AirdropState) (caller new_root : List Nat)
    (s' : AirdropState)
    (h : update_tree s caller new_root = .ok s') :
    s'.authority = s.authority ∧ s'.mint = s.mint ∧
    s'.airdrop_amount = s.airdrop_amount ∧
    s'.amount_claimed = s.amount_claimed ∧ s'.bump = s.bump := by
  unfold update_tree at h
  by_cases hc : caller = s.authority
  · rw [if_pos hc] at h
    cases h
    exact ⟨rfl, rfl, rfl, rfl, rfl⟩
  · rw [if_neg hc] at h
    simp at h

/-- C9 witness: the authority replacing the root with the empty digest
leaves every other field of the concrete state unchanged. -/
theorem update_tree_frame_witness :
    ({ wState with merkle_root := [] } : AirdropState).authority =
      wState.authority ∧
    ({ wState with merkle_root := [] } : AirdropState).mint = wState.mint ∧
    ({ wState with merkle_root := [] } : AirdropState).airdrop_amount =
      wState.airdrop_amount ∧
    ({ wState with merkle_root := [] } : AirdropState).amount_claimed =
      wState.amount_claimed ∧
    ({ wState with merkle_root := [] } : AirdropState).bump = wState.bump :=
  update_tree_frame wState wAuthority [] { wState with merkle_root := [] }
    (by decide)

/-- C10: `claim_airdrop` truncates the supplied `u64` leaf index to its
low 32 bits (`index as u32`), so any index behaves identically — both in
the state transition and in whether the transfer is attempted — to the
index reduced modulo `2 ^ 32`. -/
theorem claim_index_truncation (H : List Nat → List Nat)
    (s : AirdropState) (signer : List Nat) (amount : Nat)
    (hashes : List Nat) (index : Nat) :
    claim_airdrop H s signer amount hashes index =
      claim_airdrop H s signer amount hashes (index % 2 ^ 32) ∧
    transfer_attempted H s signer amount hashes index =
      transfer_attempted H s signer amount hashes (index % 2 ^ 32) := by
  have h32 : index % 2 ^ 32 % 2 ^ 32 = index % 2 ^ 32 :=
    Nat.mod_mod_of_dvd index dvd_rfl
  constructor
  · unfold claim_airdrop
    rw [h32]
  · unfold transfer_attempted
    rw [h32]

end MerkleClaimer
